import Mathlib

/-!
# Verification of the MoviePilot plugin lifecycle and dynamic route registry

Shallow embedding of `app/api/endpoints/plugin.py`: the dynamic plugin API
route synchronizer (`_update_plugin_api_routes`, `_remove_routes`,
`_clean_protected_routes`), the plugin folder index operations, and the
install / uninstall lifecycle endpoints.

Modelling conventions:
* the FastAPI route table `app.routes` is a list of `Route` values; Python
  `list.remove` is `removeFirst` (first occurrence), `app.add_api_route`
  appends at the end;
* FastAPI `Depends(...)` objects compare by identity (`fastapi.params.Depends`
  defines no `__eq__`); we model identity with a serial number drawn from an
  allocation counter `nextSerial` carried in the application state;
* external collaborators (`PluginManager`, `PluginHelper`, `Scheduler`,
  `SystemConfigOper`) are modelled at their interface boundary: pure oracle
  functions in an environment record, plus effect logs in the state;
* Python `str.startswith` is modelled through `List.isPrefixOf` on the
  character lists of the strings involved.
-/

namespace MoviePilot

/-! ## List helpers modelling Python list semantics -/

/-- Python's `list.remove(a)` removes the first occurrence of `a` (and the
`ValueError` raised when `a` is absent is caught by the callers we model, so
absence is a no-op). -/
def removeFirst {α : Type} [DecidableEq α] : List α → α → List α
  | [], _ => []
  | x :: xs, a => if x = a then xs else x :: removeFirst xs a

def strStartsWith (s pfx : String) : Bool := pfx.toList.isPrefixOf s.toList

/-! ## Dependencies, routes, application state

`fastapi.params.Depends` defines no `__eq__`, so Python's `in` test on a
dependency list compares object identity.  Every evaluation of
`Depends(verify_token)` / `Depends(verify_apikey)` in the source creates a
fresh object; we model object identity with a `serial` number drawn from the
allocation counter `AppState.nextSerial`. -/

/-- The dependency callables used by `plugin.py` (`app.core.security`), plus
arbitrary other callables a plugin may already have declared. -/
inductive AuthFn : Type
  | verifyToken : AuthFn
  | verifyApikey : AuthFn
  | otherFn : Nat → AuthFn
deriving DecidableEq, Repr

/-- A `Depends(fn)` object: the wrapped callable plus the object identity. -/
structure Dep : Type where
  fn : AuthFn
  serial : Nat
deriving DecidableEq, Repr

/-- One binding of the FastAPI route table (`app.routes`): the resolved path
and the dependency objects attached at registration time. -/
structure Route : Type where
  path : String
  deps : List Dep
deriving DecidableEq, Repr

/-- `PROTECTED_ROUTES` from `plugin.py` (a Python set; modelled as a list,
membership is the same). -/
def PROTECTED_ROUTES : List String :=
  ["/api/v1/openapi.json", "/docs", "/docs/oauth2-redirect", "/redoc"]

/-- `settings.API_V1_STR` (external configuration; its standard value). -/
def API_V1_STR : String := "/api/v1"

/-- `PLUGIN_PREFIX = f"{settings.API_V1_STR}/plugin"`. -/
def PLUGIN_PREFIX : String := API_V1_STR ++ "/plugin"

/-- The prefix `f"{PLUGIN_PREFIX}/{plugin_id}/"` used by `_remove_routes`. -/
def pluginScope (pluginId : String) : String :=
  PLUGIN_PREFIX ++ "/" ++ pluginId ++ "/"

/-- The mutable FastAPI application state touched by the synchronizer:
the route table, the `Depends`-object allocation counter, and a counter of
schema regenerations (`app.openapi_schema = None; app.setup()`). -/
structure AppState : Type where
  routes : List Route
  nextSerial : Nat
  schemaRegens : Nat
deriving DecidableEq, Repr

/-- A route descriptor as returned by `PluginManager().get_plugin_apis`:
the declared relative path and the keys popped by the synchronizer, with the
Python `dict.pop` / `dict.setdefault` defaults already resolved
(`allow_anonymous` defaults to `False`, `auth` to `"apikey"`,
`dependencies` to `[]`). -/
structure PluginApi : Type where
  path : String
  allow_anonymous : Bool
  auth : String
  dependencies : List Dep
deriving DecidableEq, Repr

/-- External collaborators of the synchronizer, at their interface boundary:
the running-plugin ids, each plugin's declared API surface, and an oracle
telling which `app.add_api_route` calls raise (the `except` branch). -/
structure SyncEnv : Type where
  running : List String
  apis : String → List PluginApi
  addFails : String → Bool

/-- Model of FastAPI's `app.setup()`: the bulk rebuild re-registers the
schema/docs endpoints (the protected routes) by appending fresh bindings to
the route table.  The source's `_clean_protected_routes` docstring documents
exactly this re-adding (stale copies must be removed to avoid duplicates). -/
def appSetup (routes : List Route) : List Route :=
  routes ++ PROTECTED_ROUTES.map (fun p => { path := p, deps := [] })

/-- `existing_paths = {route.path: route for route in app.routes}`: a dict
comprehension, so for a duplicated path the later route wins. -/
def snapshotPaths (routes : List Route) (p : String) : Option Route :=
  routes.foldl (fun acc r => if r.path = p then some r else acc) none

/-- `_remove_routes(plugin_id)`: drop every route whose path starts with
`f"{PLUGIN_PREFIX}/{plugin_id}/"`; report whether any was removed.  A falsy
`plugin_id` returns `False` immediately. -/
def removeRoutes (pluginId : String) (routes : List Route) : List Route × Bool :=
  if pluginId = "" then (routes, false)
  else
    (routes.filter (fun r => !(strStartsWith r.path (pluginScope pluginId))),
     routes.any (fun r => strStartsWith r.path (pluginScope pluginId)))

/-- The dependency-list mutation of `_update_plugin_api_routes` for one route
descriptor, with explicit `Depends` allocation: each `Depends(...)` expression
evaluated by the source consumes one serial from the counter `c`.  The `elif`
chain and the short-circuit of `and` are translated exactly. -/
def addAuthDeps (anon : Bool) (auth : String) (deps : List Dep) (c : Nat) :
    List Dep × Nat :=
  if anon then (deps, c)
  else
    if auth = "bear" then
      -- `Depends(verify_token) not in dependencies` allocates serial `c`
      if Dep.mk .verifyToken c ∈ deps then
        -- fall through to the `elif`: allocate and test `Depends(verify_apikey)`
        if Dep.mk .verifyApikey (c + 1) ∈ deps then (deps, c + 2)
        else (deps ++ [Dep.mk .verifyApikey (c + 2)], c + 3)
      else (deps ++ [Dep.mk .verifyToken (c + 1)], c + 2)
    else
      -- `auth_mode == "bear"` is false, so the `and` short-circuits
      if Dep.mk .verifyApikey c ∈ deps then (deps, c + 1)
      else (deps ++ [Dep.mk .verifyApikey (c + 1)], c + 2)

/-- Processing of one route descriptor in the `action = "add"` loop body:
path rewrite, dependency handling, then `app.add_api_route` (append), which
may raise (oracle `addFails`, the `except` branch logs and continues, leaving
`is_modified` untouched). -/
def processApi (addFails : String → Bool) (api : PluginApi)
    (acc : AppState × Bool) : AppState × Bool :=
  let st := acc.1
  let apiPath := PLUGIN_PREFIX ++ api.path
  let da := addAuthDeps api.allow_anonymous api.auth api.dependencies st.nextSerial
  if addFails apiPath then ({ st with nextSerial := da.2 }, acc.2)
  else
    ({ st with routes := st.routes ++ [{ path := apiPath, deps := da.1 }],
               nextSerial := da.2 }, true)

/-- One iteration of the `for plugin_id in plugin_ids` loop: remove the
plugin's existing routes, then (for `action = "add"`) register its declared
API surface. -/
def processPlugin (env : SyncEnv) (action : String) (acc : AppState × Bool)
    (pluginId : String) : AppState × Bool :=
  let rr := removeRoutes pluginId acc.1.routes
  let st := { acc.1 with routes := rr.1 }
  let m := acc.2 || rr.2
  if action = "add" then
    (env.apis pluginId).foldl (fun a api => processApi env.addFails api a) (st, m)
  else (st, m)

/-- `plugin_ids = [plugin_id] if plugin_id else PluginManager().get_running_plugin_ids()`
(Python truthiness: `None` and `""` both select the running list). -/
def pluginIdsOf (env : SyncEnv) (pluginId : Option String) : List String :=
  match pluginId with
  | some pid => if pid = "" then env.running else [pid]
  | none => env.running

/-- `_clean_protected_routes(existing_paths)`: for each protected path, remove
the snapshotted binding from the table (`list.remove`; a `ValueError` for an
absent binding is caught, so absence is a no-op).  `PROTECTED_ROUTES` is a set;
iteration order does not matter because the removed bindings have pairwise
distinct paths. -/
def cleanProtectedRoutes (snap : String → Option Route) (routes : List Route) :
    List Route :=
  PROTECTED_ROUTES.foldl
    (fun rs p =>
      match snap p with
      | some r => removeFirst rs r
      | none => rs)
    routes

/-- The body of `_update_plugin_api_routes` after the action validation:
snapshot the current paths, process each target plugin, and if anything
changed clean the stale protected routes, invalidate the schema and re-run
`app.setup()`.  Returns the final state and the internal `is_modified` flag. -/
def updateGo (env : SyncEnv) (pluginId : Option String) (action : String)
    (st0 : AppState) : AppState × Bool :=
  let snap := snapshotPaths st0.routes
  let res := (pluginIdsOf env pluginId).foldl (processPlugin env action) (st0, false)
  if res.2 then
    ({ res.1 with
        routes := appSetup (cleanProtectedRoutes snap res.1.routes),
        schemaRegens := res.1.schemaRegens + 1 }, true)
  else res

/-- `_update_plugin_api_routes(plugin_id, action)`: validates the action
(`ValueError` otherwise) and runs the synchronization.  The Python function
has no `return` statement, so its value is `None`: we expose the returned
value as the `Option Bool` component, which is always `none`. -/
def updatePluginApiRoutes (env : SyncEnv) (pluginId : Option String)
    (action : String) (st : AppState) : Except String (AppState × Option Bool) :=
  if action = "add" ∨ action = "remove" then
    Except.ok ((updateGo env pluginId action st).1, none)
  else Except.error "Action must be add or remove"

/-- `register_plugin_api(plugin_id=None)`. -/
def register_plugin_api (env : SyncEnv) (pluginId : Option String)
    (st : AppState) : Except String AppState :=
  (updatePluginApiRoutes env pluginId "add" st).map Prod.fst

/-- `remove_plugin_api(plugin_id)`. -/
def remove_plugin_api (env : SyncEnv) (pluginId : String)
    (st : AppState) : Except String AppState :=
  (updatePluginApiRoutes env (some pluginId) "remove" st).map Prod.fst

/-- A route-synchronization call, for stating properties of call sequences. -/
inductive SyncCall : Type
  | reg : Option String → SyncCall
  | rem : String → SyncCall
deriving DecidableEq, Repr

/-- Run one synchronization call on the application state. -/
def runCall (env : SyncEnv) (st : AppState) : SyncCall → AppState
  | .reg pid => (updateGo env pid "add" st).1
  | .rem pid => (updateGo env (some pid) "remove" st).1

/-- Run a sequence of synchronization calls. -/
def runCalls (env : SyncEnv) (cs : List SyncCall) (st : AppState) : AppState :=
  cs.foldl (runCall env) st

/-! ### Concrete fixtures used by the witness theorems -/

/-- The protected-route bindings as they stand in a freshly set-up app. -/
def protectedBindings : List Route :=
  PROTECTED_ROUTES.map (fun p => { path := p, deps := [] })

/-- Witness environment: one running plugin `demo` declaring one route whose
registration fails and one bearer-token route that succeeds. -/
def exEnv : SyncEnv where
  running := ["demo"]
  apis := fun pid =>
    if pid = "demo" then
      [{ path := "/demo/fail", allow_anonymous := true, auth := "apikey",
         dependencies := [] },
       { path := "/demo/ok", allow_anonymous := false, auth := "bear",
         dependencies := [] }]
    else []
  addFails := fun p => p = PLUGIN_PREFIX ++ "/demo/fail"

/-- Witness application state: the protected routes plus one stale route of
plugin `demo`. -/
def exSt : AppState where
  routes := protectedBindings ++ [{ path := pluginScope "demo" ++ "old", deps := [] }]
  nextSerial := 0
  schemaRegens := 0

/-- Witness application state carrying only the protected routes (no plugin
routes at all). -/
def exStClean : AppState where
  routes := protectedBindings
  nextSerial := 0
  schemaRegens := 0

/-! ## Folder index

The `PluginFolders` config entry maps folder names to either a plain list of
plugin ids (legacy encoding) or a record `{"plugins": [...], "order": ...,
"icon": ...}`.  The Python dict is modelled as an insertion-ordered
association list. -/

/-- A stored folder value: the legacy list encoding, the record encoding, or
any other JSON value (e.g. a dict without a `plugins` key) that both
`isinstance` guards of the source skip. -/
inductive FolderData : Type
  | listForm : List String → FolderData
  | recordForm : List String → Nat → String → FolderData
  | otherForm : FolderData
deriving DecidableEq, Repr

/-- The encoding tag of a stored folder. -/
inductive FolderEnc : Type
  | listE : FolderEnc
  | recordE : FolderEnc
  | otherE : FolderEnc
deriving DecidableEq, Repr

/-- The encoding a folder value is persisted in. -/
def FolderData.enc : FolderData → FolderEnc
  | .listForm _ => .listE
  | .recordForm _ _ _ => .recordE
  | .otherForm => .otherE

/-- The two-guard scan of the source (`isinstance(folder_data, dict) and
'plugins' in folder_data` first, `elif isinstance(folder_data, list)`). -/
def folderContains (pid : String) : FolderData → Bool
  | .recordForm ps _ _ => pid ∈ ps
  | .listForm ps => pid ∈ ps
  | .otherForm => false

/-- Python `folders[name] = v`: replace in place when the key exists (a dict
keeps the original insertion position), append otherwise. -/
def dictSet (m : List (String × FolderData)) (k : String) (v : FolderData) :
    List (String × FolderData) :=
  if m.any (fun kv => kv.1 = k) then
    m.map (fun kv => if kv.1 = k then (k, v) else kv)
  else m ++ [(k, v)]

/-- Python `d.get(k)` on a string-keyed dict. -/
def dictGet {α : Type} (k : String) (m : List (String × α)) : Option α :=
  (m.find? (fun kv => kv.1 = k)).map Prod.snd

/-- `schemas.Response`: the uniform `{success, message}` result. -/
structure Response : Type where
  success : Bool
  message : Option String
deriving DecidableEq, Repr

/-- `update_folder_plugins(folder_name, plugin_ids)`: the endpoint assigns
`folders[folder_name] = plugin_ids` — a plain Python list, whatever encoding
was on disk — persists, and returns success. -/
def update_folder_plugins (folderName : String) (pluginIds : List String)
    (folders : List (String × FolderData)) :
    List (String × FolderData) × Response :=
  (dictSet folders folderName (.listForm pluginIds),
   { success := true,
     message := some ("文件夹 '" ++ folderName ++ "' 中的插件已更新") })

/-- `create_plugin_folder(folder_name)`: creates an empty list-encoded folder
when the name is free, otherwise reports failure without writing.  The middle
component is whether the store was written. -/
def create_plugin_folder (folderName : String)
    (folders : List (String × FolderData)) :
    List (String × FolderData) × Bool × Response :=
  if folders.any (fun kv => kv.1 = folderName) then
    (folders, false,
     { success := false, message := some ("文件夹 '" ++ folderName ++ "' 已存在") })
  else
    (folders ++ [(folderName, .listForm [])], true,
     { success := true, message := some ("文件夹 '" ++ folderName ++ "' 创建成功") })

/-- The per-folder mutation of `_remove_plugin_from_folders`: remove the first
occurrence of the plugin from whichever encoding is present; report whether
the folder changed. -/
def removeFromFolder (pid : String) : FolderData → FolderData × Bool
  | .recordForm ps o i =>
      if pid ∈ ps then (.recordForm (removeFirst ps pid) o i, true)
      else (.recordForm ps o i, false)
  | .listForm ps =>
      if pid ∈ ps then (.listForm (removeFirst ps pid), true)
      else (.listForm ps, false)
  | .otherForm => (.otherForm, false)

/-- `_remove_plugin_from_folders(plugin_id)`: scan every folder in both
encodings, remove the id where present (mutating each entry in place), and
persist only when at least one removal occurred. -/
def removePluginFromFolders (pid : String)
    (folders : List (String × FolderData)) :
    List (String × FolderData) × Bool :=
  (folders.map (fun kv => (kv.1, (removeFromFolder pid kv.2).1)),
   folders.any (fun kv => (removeFromFolder pid kv.2).2))

/-- The per-folder append of `_add_clone_to_plugin_folder` (appends the clone
only when absent; same guard order as the source). -/
def addCloneToFolderData (cloneId : String) : FolderData → FolderData
  | .recordForm ps o i =>
      if cloneId ∈ ps then .recordForm ps o i
      else .recordForm (ps ++ [cloneId]) o i
  | .listForm ps =>
      if cloneId ∈ ps then .listForm ps else .listForm (ps ++ [cloneId])
  | .otherForm => .otherForm

/-- `_add_clone_to_plugin_folder(original_plugin_id, clone_plugin_id)`: find
the first folder containing the original (scanning both encodings), append the
clone there and persist; when the original is in no folder, nothing is
written. -/
def addCloneToPluginFolder (origId cloneId : String)
    (folders : List (String × FolderData)) :
    List (String × FolderData) × Bool :=
  match folders.find? (fun kv => folderContains origId kv.2) with
  | none => (folders, false)
  | some kv =>
      (folders.map (fun e =>
        if e.1 = kv.1 then (e.1, addCloneToFolderData cloneId e.2) else e), true)

/-- The membership list a folder scan sees (`otherForm` contributes nothing). -/
def folderPlugins : FolderData → List String
  | .listForm ps => ps
  | .recordForm ps _ _ => ps
  | .otherForm => []

/-! ## Uninstall lifecycle (`uninstall_plugin`) -/

/-- Modelled from the spec: `PluginManager.delete_plugin_config`
(`app/core/plugin.py` is not under `src/`) — "delete its persisted config" —
removes the persisted configuration entry of the given plugin id. -/
def delete_plugin_config (pid : String) (configs : List (String × String)) :
    List (String × String) :=
  configs.filter (fun kv => ¬ kv.1 = pid)

/-- Modelled from the spec: `PluginManager.delete_plugin_data`
(`app/core/plugin.py` is not under `src/`) — "delete its persisted data" —
removes all persisted data entries of the given plugin id. -/
def delete_plugin_data (pid : String) (datas : List (String × String)) :
    List (String × String) :=
  datas.filter (fun kv => ¬ kv.1 = pid)

/-- Modelled from the spec: `PluginManager.remove_plugin`
(`app/core/plugin.py` is not under `src/`) — "`remove(id)`: drops the Plugin
record entirely" — deletes the plugin's record from the registry. -/
def pluginManagerRemove (pid : String) (plugins : List (String × Bool)) :
    List (String × Bool) :=
  plugins.filter (fun kv => ¬ kv.1 = pid)

/-- `getattr(plugin_manager.plugins.get(plugin_id), "is_clone", False)`: the
registry maps each id to its `is_clone` attribute; an unknown id (`.get`
returns `None`) yields `False`. -/
def isCloneOf (plugins : List (String × Bool)) (pid : String) : Bool :=
  match plugins.find? (fun kv => kv.1 = pid) with
  | some kv => kv.2
  | none => false

/-- The system state touched by `uninstall_plugin`: the installed-plugin list,
the persisted configs and data (keyed by plugin id, payloads opaque), the
on-disk plugin code directories (lower-cased names), the registry
(`PluginManager().plugins`: id ↦ its `is_clone` attribute), the folder map,
the FastAPI application state, and the log of removed scheduler jobs. -/
structure SysState : Type where
  installed : List String
  configs : List (String × String)
  datas : List (String × String)
  codeDirs : List String
  plugins : List (String × Bool)
  folders : List (String × FolderData)
  app : AppState
  removedJobs : List String
deriving DecidableEq, Repr

/-- `uninstall_plugin(plugin_id)` (`DELETE /{plugin_id}`): remove one
occurrence from the installed list (`for ...: remove; break`), persist, run
the route sync with action remove, remove the scheduler job; if the registry
record says `is_clone`, delete config and data and the code directory
`app/plugins/<id.lower()>` (the registry `pop` runs only when `rmtree`
succeeded — `rmFails` is the oracle for the caught `shutil.rmtree` failure);
finally remove the plugin from every folder and drop it from the registry.
Always returns `Response(success=True)`. -/
def uninstall_plugin (env : SyncEnv) (rmFails : String → Bool)
    (pluginId : String) (s0 : SysState) : SysState × Response :=
  let s1 := { s0 with installed := removeFirst s0.installed pluginId }
  let s2 := { s1 with app := (updateGo env (some pluginId) "remove" s1.app).1 }
  let s3 := { s2 with removedJobs := s2.removedJobs ++ [pluginId] }
  let isClone := isCloneOf s3.plugins pluginId
  let s4 :=
    if isClone then
      let sA := { s3 with configs := delete_plugin_config pluginId s3.configs,
                          datas := delete_plugin_data pluginId s3.datas }
      let dir := pluginId.toLower
      if dir ∈ sA.codeDirs then
        if rmFails dir then sA
        else { sA with codeDirs := sA.codeDirs.filter (fun d => ¬ d = dir),
                       plugins := sA.plugins.filter (fun kv => ¬ kv.1 = pluginId) }
      else sA
    else s3
  let s5 := { s4 with folders := (removePluginFromFolders pluginId s4.folders).1 }
  let s6 := { s5 with plugins := pluginManagerRemove pluginId s5.plugins }
  (s6, { success := true, message := none })

/-- Witness system state: `demo` installed with `demo_b` its clone, both
known to the registry, `demo_b` present in a record-encoded and a
list-encoded folder, its code directory on disk. -/
def exSys : SysState where
  installed := ["demo", "demo_b"]
  configs := [("demo", "cfgA"), ("demo_b", "cfgB")]
  datas := [("demo_b", "dat")]
  codeDirs := ["demo", "demo_b"]
  plugins := [("demo", false), ("demo_b", true)]
  folders := [("X", FolderData.recordForm ["demo", "demo_b"] 1 "icon"),
              ("Y", FolderData.listForm ["demo_b"])]
  app := exStClean
  removedJobs := []

/-! ## Install lifecycle (`install`, `reload_plugin`, `register_plugin`) -/

/-- External collaborators of `install`: the known plugin ids
(`PluginManager().get_plugin_ids()`) and the downloader
(`PluginHelper().install(pid, repo_url) -> (state, msg)`). -/
structure InstallEnv : Type where
  knownIds : List String
  download : String → String → Bool × String

/-- The state touched by the install workflow: the installed-plugin list and
effect logs of the external collaborators (install statistics
`PluginHelper().install_reg`, download attempts, `PluginManager` reloads,
scheduler job updates, command-registry inits), plus the FastAPI application
state. -/
structure InstallState : Type where
  installed : List String
  stats : List String
  downloads : List (String × String)
  reloads : List String
  schedUpdates : List String
  cmdInits : List String
  app : AppState
deriving DecidableEq, Repr

/-- `register_plugin(plugin_id)`: update the scheduler job, init the menu
commands, and register the plugin's API routes (sync with action add). -/
def register_plugin (env : SyncEnv) (pluginId : String) (s : InstallState) :
    InstallState :=
  { s with schedUpdates := s.schedUpdates ++ [pluginId],
           cmdInits := s.cmdInits ++ [pluginId],
           app := (updateGo env (some pluginId) "add" s.app).1 }

/-- `reload_plugin(plugin_id)`: reload the plugin in the manager (external,
logged), then `register_plugin`; returns success. -/
def reload_plugin (env : SyncEnv) (pluginId : String) (s : InstallState) :
    InstallState × Response :=
  let s1 := { s with reloads := s.reloads ++ [pluginId] }
  (register_plugin env pluginId s1, { success := true, message := none })

/-- The tail of `install` shared by both entry branches: add the id to the
installed list when absent (`install_plugins` was read at entry), persist,
and reload. -/
def installFinish (env : SyncEnv) (pluginId : String)
    (installPlugins : List String) (s : InstallState) :
    InstallState × Response :=
  let s1 := if pluginId ∈ installPlugins then s
            else { s with installed := installPlugins ++ [pluginId] }
  ((reload_plugin env pluginId s1).1, { success := true, message := none })

/-- `install(plugin_id, repo_url, force)` (`GET /install/{plugin_id}`): when
not forced and the id is already known, record an install statistic only;
otherwise download the code — an empty repo url or a failed download is
returned as a structured failure without touching anything else; then add the
id to the installed list if absent and reload the plugin. -/
def install (ienv : InstallEnv) (env : SyncEnv) (pluginId repoUrl : String)
    (force : Bool) (s0 : InstallState) : InstallState × Response :=
  let installPlugins := s0.installed
  if force = false ∧ pluginId ∈ ienv.knownIds then
    installFinish env pluginId installPlugins
      { s0 with stats := s0.stats ++ [pluginId] }
  else
    if ¬ repoUrl = "" then
      let dl := ienv.download pluginId repoUrl
      let s1 := { s0 with downloads := s0.downloads ++ [(pluginId, repoUrl)] }
      if dl.1 = false then (s1, { success := false, message := some dl.2 })
      else installFinish env pluginId installPlugins s1
    else (s0, { success := false,
                message := some "没有传入仓库地址，无法正确安装插件，请检查配置" })

/-- Witness install environment: `demo` is known; every download fails. -/
def exInstEnv : InstallEnv where
  knownIds := ["demo"]
  download := fun _ _ => (false, "download failed")

/-- Witness install state: nothing installed yet, clean app. -/
def exInstSt : InstallState where
  installed := []
  stats := []
  downloads := []
  reloads := []
  schedUpdates := []
  cmdInits := []
  app := exStClean

/-! ### Helper lemmas for the list and string models -/

theorem removeFirst_of_not_mem {α : Type} [DecidableEq α] {a : α} :
    ∀ {l : List α}, a ∉ l → removeFirst l a = l
  | [], _ => rfl
  | x :: xs, h => by
    simp only [removeFirst]
    have hxa : ¬ x = a := by rintro rfl; exact h (List.mem_cons_self x xs)
    rw [if_neg hxa, removeFirst_of_not_mem (fun hm => h (List.mem_cons_of_mem _ hm))]

theorem removeFirst_subset {α : Type} [DecidableEq α] (l : List α) (a : α) :
    removeFirst l a ⊆ l := by
  induction l with
  | nil => simp [removeFirst]
  | cons x xs ih =>
    simp only [removeFirst]
    by_cases hxa : x = a
    · simp [hxa, List.subset_cons_self]
    · rw [if_neg hxa]
      exact List.cons_subset_cons x ih

theorem mem_removeFirst_of_ne {α : Type} [DecidableEq α] {l : List α} {a b : α}
    (hne : b ≠ a) (hb : b ∈ l) : b ∈ removeFirst l a := by
  induction l with
  | nil => cases hb
  | cons x xs ih =>
    simp only [removeFirst]
    by_cases hxa : x = a
    · rw [if_pos hxa]
      rcases List.mem_cons.mp hb with h | h
      · exact absurd (h.trans hxa) hne
      · exact h
    · rw [if_neg hxa]
      rcases List.mem_cons.mp hb with h | h
      · exact h ▸ List.mem_cons_self x _
      · exact List.mem_cons_of_mem _ (ih h)

theorem count_removeFirst_self {α : Type} [DecidableEq α] (l : List α) (a : α) :
    (removeFirst l a).count a = l.count a - 1 := by
  induction l with
  | nil => rfl
  | cons x xs ih =>
    simp only [removeFirst]
    by_cases hxa : x = a
    · rw [if_pos hxa, hxa, List.count_cons_self]
      omega
    · rw [if_neg hxa, List.count_cons_of_ne (fun h => hxa h.symm),
        List.count_cons_of_ne (fun h => hxa h.symm), ih]

theorem not_mem_removeFirst_of_count_le_one {α : Type} [DecidableEq α]
    {l : List α} {a : α} (h : l.count a ≤ 1) : a ∉ removeFirst l a := by
  intro hmem
  have h1 : 1 ≤ (removeFirst l a).count a := List.one_le_count_iff.mpr hmem
  have h2 : (removeFirst l a).count a = l.count a - 1 := count_removeFirst_self l a
  omega

/-! ## Strings: Python `str.startswith` -/

/-- Model of Python's `str.startswith`. -/
theorem strStartsWith_iff {s pfx : String} :
    strStartsWith s pfx = true ↔ pfx.toList <+: s.toList := by
  simp [strStartsWith, List.isPrefixOf_iff_prefix]

theorem toList_append (s t : String) : (s ++ t).toList = s.toList ++ t.toList :=
  rfl

theorem string_eq_of_toList_eq {s t : String} (h : s.toList = t.toList) : s = t := by
  cases s; cases t; simpa [String.toList] using congrArg String.mk h

/-- Two identifier tokens followed by the separator are prefix-compatible only
when they are equal, provided neither contains the separator. -/
theorem sep_token_prefix_eq {sep : Char} :
    ∀ (a b t : List Char), sep ∉ a → sep ∉ b →
      (a ++ [sep]) <+: (b ++ sep :: t) → a = b
  | [], [], _, _, _, _ => rfl
  | [], y :: ys, t, _, hb, hpre => by
    exfalso
    have h1 : sep = y := by simpa using hpre
    exact hb (by rw [h1]; exact List.mem_cons_self y ys)
  | x :: xs, [], t, hxa, _, hpre => by
    exfalso
    have h1 : x = sep :=
      (List.cons_prefix_cons.mp (show x :: (xs ++ [sep]) <+: sep :: t by
        simpa using hpre)).1
    exact hxa (by rw [← h1]; exact List.mem_cons_self x xs)
  | x :: xs, y :: ys, t, hxa, hb, hpre => by
    have h2 := List.cons_prefix_cons.mp
      (show x :: (xs ++ [sep]) <+: y :: (ys ++ sep :: t) by simpa using hpre)
    have h3 := sep_token_prefix_eq xs ys t (fun hm => hxa (List.mem_cons_of_mem _ hm))
      (fun hm => hb (List.mem_cons_of_mem _ hm)) h2.2
    rw [h2.1, h3]

theorem register_plugin_api_eq_runCall (env : SyncEnv) (pluginId : Option String)
    (st : AppState) :
    register_plugin_api env pluginId st = Except.ok (runCall env st (.reg pluginId)) := rfl

theorem remove_plugin_api_eq_runCall (env : SyncEnv) (pluginId : String)
    (st : AppState) :
    remove_plugin_api env pluginId st = Except.ok (runCall env st (.rem pluginId)) := rfl

/-! ### Flag monotonicity and no-change stability of the synchronizer -/

theorem processApi_flag_mono (f : String → Bool) (api : PluginApi)
    (acc : AppState × Bool) (h : acc.2 = true) :
    (processApi f api acc).2 = true := by
  simp only [processApi]
  by_cases hf : f (PLUGIN_PREFIX ++ api.path) = true
  · simp [hf, h]
  · simp [hf]

theorem apisFold_flag_mono (f : String → Bool) :
    ∀ (apis : List PluginApi) (acc : AppState × Bool), acc.2 = true →
      (apis.foldl (fun a api => processApi f api a) acc).2 = true
  | [], _, h => h
  | api :: rest, acc, h =>
    apisFold_flag_mono f rest (processApi f api acc) (processApi_flag_mono f api acc h)

theorem processPlugin_flag_mono (env : SyncEnv) (action : String)
    (acc : AppState × Bool) (pid : String) (h : acc.2 = true) :
    (processPlugin env action acc pid).2 = true := by
  simp only [processPlugin]
  by_cases ha : action = "add"
  · simp only [ha, if_pos rfl]
    exact apisFold_flag_mono env.addFails (env.apis pid) _ (by simp [h])
  · simp [ha, h]

theorem idsFold_flag_mono (env : SyncEnv) (action : String) :
    ∀ (ids : List String) (acc : AppState × Bool), acc.2 = true →
      (ids.foldl (processPlugin env action) acc).2 = true
  | [], _, h => h
  | pid :: rest, acc, h =>
    idsFold_flag_mono env action rest _ (processPlugin_flag_mono env action acc pid h)

theorem removeRoutes_of_not_removed {pluginId : String} {routes : List Route}
    (h : (removeRoutes pluginId routes).2 = false) :
    (removeRoutes pluginId routes).1 = routes := by
  by_cases hp : pluginId = ""
  · simp [removeRoutes, hp]
  · simp only [removeRoutes, if_neg hp] at h ⊢
    simp only [List.any_eq_false] at h
    exact List.filter_eq_self.mpr (fun r hr => by simp [h r hr])

theorem processApi_flag_false (f : String → Bool) (api : PluginApi)
    (acc : AppState × Bool) (h : (processApi f api acc).2 = false) :
    acc.2 = false ∧ (processApi f api acc).1.routes = acc.1.routes := by
  simp only [processApi] at h ⊢
  by_cases hf : f (PLUGIN_PREFIX ++ api.path) = true
  · simp only [hf, if_pos rfl] at h ⊢
    exact ⟨h, rfl⟩
  · simp [hf] at h

theorem apisFold_flag_false (f : String → Bool) :
    ∀ (apis : List PluginApi) (acc : AppState × Bool),
      (apis.foldl (fun a api => processApi f api a) acc).2 = false →
      acc.2 = false ∧
        (apis.foldl (fun a api => processApi f api a) acc).1.routes = acc.1.routes
  | [], _, h => ⟨h, rfl⟩
  | api :: rest, acc, h => by
    have hrest := apisFold_flag_false f rest (processApi f api acc) h
    have hthis := processApi_flag_false f api acc hrest.1
    exact ⟨hthis.1, hrest.2.trans hthis.2⟩

theorem processPlugin_flag_false (env : SyncEnv) (action : String)
    (acc : AppState × Bool) (pid : String)
    (h : (processPlugin env action acc pid).2 = false) :
    acc.2 = false ∧ (processPlugin env action acc pid).1.routes = acc.1.routes := by
  simp only [processPlugin] at h ⊢
  by_cases ha : action = "add"
  · simp only [ha, if_pos rfl] at h ⊢
    have hfold := apisFold_flag_false env.addFails (env.apis pid) _ h
    simp only [Bool.or_eq_false_iff] at hfold
    refine ⟨hfold.1.1, hfold.2.trans ?_⟩
    exact removeRoutes_of_not_removed hfold.1.2
  · simp only [if_neg ha] at h ⊢
    simp only [Bool.or_eq_false_iff] at h
    exact ⟨h.1, removeRoutes_of_not_removed h.2⟩

theorem idsFold_flag_false (env : SyncEnv) (action : String) :
    ∀ (ids : List String) (acc : AppState × Bool),
      (ids.foldl (processPlugin env action) acc).2 = false →
      acc.2 = false ∧
        (ids.foldl (processPlugin env action) acc).1.routes = acc.1.routes
  | [], _, h => ⟨h, rfl⟩
  | pid :: rest, acc, h => by
    have hrest := idsFold_flag_false env action rest (processPlugin env action acc pid) h
    have hthis := processPlugin_flag_false env action acc pid hrest.1
    exact ⟨hthis.1, hrest.2.trans hthis.2⟩

/-! ### Route-membership preservation lemmas -/

theorem mem_processApi (f : String → Bool) (api : PluginApi)
    (acc : AppState × Bool) {r : Route} (h : r ∈ acc.1.routes) :
    r ∈ (processApi f api acc).1.routes := by
  simp only [processApi]
  by_cases hf : f (PLUGIN_PREFIX ++ api.path) = true
  · simpa [hf] using h
  · simp [hf, List.mem_append]
    exact Or.inl h

theorem mem_apisFold (f : String → Bool) :
    ∀ (apis : List PluginApi) (acc : AppState × Bool) {r : Route},
      r ∈ acc.1.routes →
      r ∈ (apis.foldl (fun a api => processApi f api a) acc).1.routes
  | [], _, _, h => h
  | api :: rest, acc, r, h =>
    mem_apisFold f rest (processApi f api acc) (mem_processApi f api acc h)

theorem mem_removeRoutes {pluginId : String} {routes : List Route} {r : Route}
    (h : r ∈ routes) (hs : strStartsWith r.path (pluginScope pluginId) = false) :
    r ∈ (removeRoutes pluginId routes).1 := by
  by_cases hp : pluginId = ""
  · simpa [removeRoutes, hp] using h
  · simp only [removeRoutes, if_neg hp]
    exact List.mem_filter.mpr ⟨h, by simp [hs]⟩

theorem mem_processPlugin (env : SyncEnv) (action : String)
    (acc : AppState × Bool) (pid : String) {r : Route}
    (h : r ∈ acc.1.routes) (hs : strStartsWith r.path (pluginScope pid) = false) :
    r ∈ (processPlugin env action acc pid).1.routes := by
  simp only [processPlugin]
  by_cases ha : action = "add"
  · simp only [ha, if_pos rfl]
    exact mem_apisFold env.addFails (env.apis pid) _ (mem_removeRoutes h hs)
  · simp only [if_neg ha]
    exact mem_removeRoutes h hs

theorem mem_idsFold (env : SyncEnv) (action : String) :
    ∀ (ids : List String) (acc : AppState × Bool) {r : Route},
      r ∈ acc.1.routes →
      (∀ q ∈ ids, strStartsWith r.path (pluginScope q) = false) →
      r ∈ (ids.foldl (processPlugin env action) acc).1.routes
  | [], _, _, h, _ => h
  | pid :: rest, acc, r, h, hall =>
    mem_idsFold env action rest (processPlugin env action acc pid)
      (mem_processPlugin env action acc pid h (hall pid (List.mem_cons_self pid rest)))
      (fun q hq => hall q (List.mem_cons_of_mem _ hq))

theorem snapshotPaths_path {routes : List Route} {p : String} :
    ∀ {acc : Option Route},
      (∀ r, acc = some r → r.path = p) →
      ∀ {r}, routes.foldl (fun a r => if r.path = p then some r else a) acc = some r →
        r.path = p := by
  induction routes with
  | nil => intro acc hacc r h; exact hacc r h
  | cons x xs ih =>
    intro acc hacc r h
    refine ih (fun r' h' => ?_) h
    have h'' : (if x.path = p then some x else acc) = some r' := h'
    by_cases hx : x.path = p
    · rw [if_pos hx] at h''; cases h''; exact hx
    · rw [if_neg hx] at h''; exact hacc r' h''

theorem snapshotPaths_some {routes : List Route} {p : String} {r : Route}
    (h : snapshotPaths routes p = some r) : r.path = p :=
  snapshotPaths_path (fun r' h' => by cases h') h

theorem mem_cleanFold {r : Route} (snap : String → Option Route)
    (hsnap : ∀ p r₀, snap p = some r₀ → r₀.path = p) :
    ∀ (ps : List String) (routes : List Route),
      r ∈ routes → (∀ p ∈ ps, r.path ≠ p) →
      r ∈ ps.foldl
          (fun rs p => match snap p with
            | some r₀ => removeFirst rs r₀
            | none => rs) routes
  | [], _, h, _ => h
  | p :: rest, routes, h, hall => by
    refine mem_cleanFold snap hsnap rest _ ?_ (fun q hq => hall q (List.mem_cons_of_mem _ hq))
    cases hs : snap p with
    | none => simpa [hs] using h
    | some r₀ =>
      simp only [hs]
      refine mem_removeFirst_of_ne (fun hrr => ?_) h
      exact hall p (List.mem_cons_self p rest) (by rw [hrr, hsnap p r₀ hs])

theorem mem_cleanProtectedRoutes {r : Route} {routes : List Route}
    (snap : String → Option Route)
    (hsnap : ∀ p r₀, snap p = some r₀ → r₀.path = p)
    (h : r ∈ routes) (hp : r.path ∉ PROTECTED_ROUTES) :
    r ∈ cleanProtectedRoutes snap routes :=
  mem_cleanFold snap hsnap PROTECTED_ROUTES routes h (fun p hpp hep => hp (hep ▸ hpp))

theorem mem_appSetup {r : Route} {routes : List Route} (h : r ∈ routes) :
    r ∈ appSetup routes :=
  List.mem_append.mpr (Or.inl h)

/-! ### The synchronizer never touches the regeneration counter inside the loop -/

theorem processApi_schemaRegens (f : String → Bool) (api : PluginApi)
    (acc : AppState × Bool) :
    (processApi f api acc).1.schemaRegens = acc.1.schemaRegens := by
  simp only [processApi]
  by_cases hf : f (PLUGIN_PREFIX ++ api.path) = true
  · simp [hf]
  · simp [hf]

theorem apisFold_schemaRegens (f : String → Bool) :
    ∀ (apis : List PluginApi) (acc : AppState × Bool),
      (apis.foldl (fun a api => processApi f api a) acc).1.schemaRegens =
        acc.1.schemaRegens
  | [], _ => rfl
  | api :: rest, acc =>
    (apisFold_schemaRegens f rest (processApi f api acc)).trans
      (processApi_schemaRegens f api acc)

theorem processPlugin_schemaRegens (env : SyncEnv) (action : String)
    (acc : AppState × Bool) (pid : String) :
    (processPlugin env action acc pid).1.schemaRegens = acc.1.schemaRegens := by
  simp only [processPlugin]
  by_cases ha : action = "add"
  · simp only [ha, if_pos rfl]
    exact apisFold_schemaRegens env.addFails (env.apis pid) _
  · simp [ha]

theorem idsFold_schemaRegens (env : SyncEnv) (action : String) :
    ∀ (ids : List String) (acc : AppState × Bool),
      (ids.foldl (processPlugin env action) acc).1.schemaRegens = acc.1.schemaRegens
  | [], _ => rfl
  | pid :: rest, acc =>
    (idsFold_schemaRegens env action rest (processPlugin env action acc pid)).trans
      (processPlugin_schemaRegens env action acc pid)

/-! ### Characterization of the internal `is_modified` flag -/

theorem apisFold_all_fail (f : String → Bool) :
    ∀ (apis : List PluginApi) (acc : AppState × Bool),
      (apis.foldl (fun a api => processApi f api a) acc).2 = false →
      ∀ api ∈ apis, f (PLUGIN_PREFIX ++ api.path) = true
  | [], _, _, _, hmem => absurd hmem (List.not_mem_nil _)
  | api :: rest, acc, h, api', hmem => by
    have hrest := apisFold_flag_false f rest (processApi f api acc) h
    rcases List.mem_cons.mp hmem with rfl | hmem'
    · by_cases hf : f (PLUGIN_PREFIX ++ api'.path) = true
      · exact hf
      · exfalso
        have : (processApi f api' acc).2 = true := by simp [processApi, hf]
        rw [this] at hrest
        exact Bool.true_eq_false.mp hrest.1
    · exact apisFold_all_fail f rest (processApi f api acc) h api' hmem'

theorem apisFold_all_fail_stable (f : String → Bool) :
    ∀ (apis : List PluginApi) (acc : AppState × Bool),
      (∀ api ∈ apis, f (PLUGIN_PREFIX ++ api.path) = true) →
      (apis.foldl (fun a api => processApi f api a) acc).2 = acc.2 ∧
        (apis.foldl (fun a api => processApi f api a) acc).1.routes = acc.1.routes
  | [], _, _ => ⟨rfl, rfl⟩
  | api :: rest, acc, hall => by
    have hthis1 : (processApi f api acc).2 = acc.2 := by
      simp [processApi, hall api (List.mem_cons_self api rest)]
    have hthis2 : (processApi f api acc).1.routes = acc.1.routes := by
      simp [processApi, hall api (List.mem_cons_self api rest)]
    have hrest := apisFold_all_fail_stable f rest (processApi f api acc)
      (fun a ha => hall a (List.mem_cons_of_mem _ ha))
    simp only [List.foldl_cons]
    exact ⟨hrest.1.trans hthis1, hrest.2.trans hthis2⟩

theorem processPlugin_no_change (env : SyncEnv) (action : String)
    (acc : AppState × Bool) (pid : String)
    (hrem : (removeRoutes pid acc.1.routes).2 = false)
    (hadd : action = "add" → ∀ api ∈ env.apis pid,
      env.addFails (PLUGIN_PREFIX ++ api.path) = true) :
    (processPlugin env action acc pid).2 = acc.2 ∧
      (processPlugin env action acc pid).1.routes = acc.1.routes := by
  have hr1 := removeRoutes_of_not_removed hrem
  simp only [processPlugin]
  by_cases ha : action = "add"
  · simp only [ha, if_pos rfl]
    have hstable := apisFold_all_fail_stable env.addFails (env.apis pid)
      ({ acc.1 with routes := (removeRoutes pid acc.1.routes).1 },
        acc.2 || (removeRoutes pid acc.1.routes).2) (hadd ha)
    refine ⟨hstable.1.trans ?_, hstable.2.trans ?_⟩
    · simp [hrem]
    · simpa using hr1
  · simp only [if_neg ha]
    exact ⟨by simp [hrem], by simpa using hr1⟩

theorem idsFold_flag_char (env : SyncEnv) (action : String) :
    ∀ (ids : List String) (acc : AppState × Bool),
      ((ids.foldl (processPlugin env action) acc).2 = false ↔
        (acc.2 = false ∧
         (∀ q ∈ ids, (removeRoutes q acc.1.routes).2 = false) ∧
         (action = "add" → ∀ q ∈ ids, ∀ api ∈ env.apis q,
            env.addFails (PLUGIN_PREFIX ++ api.path) = true)))
  | [], acc => by simp
  | pid :: rest, acc => by
    constructor
    · intro h
      have hrest := idsFold_flag_char env action rest (processPlugin env action acc pid)
      have hr := hrest.mp h
      have hstep := processPlugin_flag_false env action acc pid hr.1
      refine ⟨hstep.1, ?_, ?_⟩
      · intro q hq
        rcases List.mem_cons.mp hq with rfl | hq'
        · -- the removal of `pid` itself produced nothing
          by_cases hrm : (removeRoutes q acc.1.routes).2 = false
          · exact hrm
          · exfalso
            have : (processPlugin env action acc q).2 = true := by
              simp only [processPlugin]
              have hrm' : (removeRoutes q acc.1.routes).2 = true :=
                Bool.not_eq_false _ |>.mp hrm
              by_cases ha : action = "add"
              · simp only [ha, if_pos rfl]
                exact apisFold_flag_mono env.addFails (env.apis q) _ (by simp [hrm'])
              · simp [ha, hrm']
            rw [this] at hr
            exact Bool.true_eq_false.mp hr.1
        · have := (hr.2.1 q hq')
          rwa [hstep.2] at this
      · intro ha q hq
        rcases List.mem_cons.mp hq with rfl | hq'
        · -- all of `pid`'s own registrations failed
          intro api hapi
          simp only [processPlugin, ha, if_pos rfl] at hr
          exact apisFold_all_fail env.addFails (env.apis q) _ hr.1 api hapi
        · exact hr.2.2 ha q hq'
    · rintro ⟨hacc, hrem, hadd⟩
      have hstep := processPlugin_no_change env action acc pid
        (hrem pid (List.mem_cons_self pid rest))
        (fun ha => hadd ha pid (List.mem_cons_self pid rest))
      refine (idsFold_flag_char env action rest (processPlugin env action acc pid)).mpr
        ⟨hstep.1.trans hacc, ?_, fun ha q hq => hadd ha q (List.mem_cons_of_mem _ hq)⟩
      intro q hq
      rw [hstep.2]
      exact hrem q (List.mem_cons_of_mem _ hq)

/-! ### C2: the synchronizer's return value and internal mutation flag -/

/-- C2 counterexample: a concrete `remove` call that removes a route (the
internal mutation flag is `true`), yet `_update_plugin_api_routes` returns
`None` — not a boolean — so the operation does not return a value indicating
whether a mutation occurred. -/
theorem update_routes_returns_none_counterexample :
    (updateGo exEnv (some "demo") "remove" exSt).2 = true ∧
    updatePluginApiRoutes exEnv (some "demo") "remove" exSt =
      Except.ok ((updateGo exEnv (some "demo") "remove" exSt).1, (none : Option Bool)) ∧
    (none : Option Bool) ≠ some true := by
  refine ⟨by decide, rfl, by decide⟩

/-- C2 (amended): `_update_plugin_api_routes` returns `None` rather than a
boolean.  It tracks mutation in the internal `is_modified` flag — false
exactly when no processed plugin had matching routes in the pre-call table and
(for action `"add"`) every attempted route registration failed — and the
function itself skips the protected-route cleanup and schema regeneration
when the flag is false, performing them exactly once when it is true. -/
theorem update_routes_internal_flag (env : SyncEnv) (pluginId : Option String)
    (action : String) (st : AppState)
    (hact : action = "add" ∨ action = "remove") :
    updatePluginApiRoutes env pluginId action st =
      Except.ok ((updateGo env pluginId action st).1, (none : Option Bool)) ∧
    ((updateGo env pluginId action st).2 = false ↔
      ((∀ q ∈ pluginIdsOf env pluginId, (removeRoutes q st.routes).2 = false) ∧
       (action = "add" → ∀ q ∈ pluginIdsOf env pluginId, ∀ api ∈ env.apis q,
          env.addFails (PLUGIN_PREFIX ++ api.path) = true))) ∧
    ((updateGo env pluginId action st).2 = false →
      (updateGo env pluginId action st).1.routes = st.routes ∧
      (updateGo env pluginId action st).1.schemaRegens = st.schemaRegens) ∧
    ((updateGo env pluginId action st).2 = true →
      (updateGo env pluginId action st).1.schemaRegens = st.schemaRegens + 1) := by
  have hgo2 : (updateGo env pluginId action st).2 =
      ((pluginIdsOf env pluginId).foldl (processPlugin env action) (st, false)).2 := by
    simp only [updateGo]
    cases hm : ((pluginIdsOf env pluginId).foldl (processPlugin env action) (st, false)).2
    · simp [hm]
    · simp [hm]
  refine ⟨by simp [updatePluginApiRoutes, hact], ?_, ?_, ?_⟩
  · rw [hgo2]
    have := idsFold_flag_char env action (pluginIdsOf env pluginId) (st, false)
    simpa using this
  · intro hm
    rw [hgo2] at hm
    have hstable := idsFold_flag_false env action (pluginIdsOf env pluginId) (st, false) hm
    have hregen := idsFold_schemaRegens env action (pluginIdsOf env pluginId) (st, false)
    simp only [updateGo, hm, Bool.false_eq_true, if_false]
    exact ⟨hstable.2, hregen⟩
  · intro hm
    rw [hgo2] at hm
    have hregen := idsFold_schemaRegens env action (pluginIdsOf env pluginId) (st, false)
    simp only [updateGo, hm, if_true]
    rw [hregen]

/-- Witness for C2's amended theorem at a concrete valid call. -/
theorem update_routes_internal_flag_witness :
    (("remove" : String) = "add" ∨ ("remove" : String) = "remove") ∧
    updatePluginApiRoutes exEnv (some "demo") "remove" exSt =
      Except.ok ((updateGo exEnv (some "demo") "remove" exSt).1, (none : Option Bool)) :=
  ⟨Or.inr rfl,
    (update_routes_internal_flag exEnv (some "demo") "remove" exSt (Or.inr rfl)).1⟩

/-! ### Removal-specific lemmas (for idempotence) -/

theorem removeRoutes_no_match {q : String} (hq : ¬ q = "") (rs : List Route) :
    ∀ r ∈ (removeRoutes q rs).1, strStartsWith r.path (pluginScope q) = false := by
  intro r hr
  simp only [removeRoutes, if_neg hq] at hr
  have := List.of_mem_filter hr
  simpa using this

theorem removeRoutes_sub (q : String) (rs : List Route) :
    (removeRoutes q rs).1 ⊆ rs := by
  by_cases hq : q = ""
  · simp [removeRoutes, hq]
  · simp only [removeRoutes, if_neg hq]
    exact List.filter_subset' _

theorem processPlugin_remove_routes_sub (env : SyncEnv) (acc : AppState × Bool)
    (q : String) :
    (processPlugin env "remove" acc q).1.routes ⊆ acc.1.routes := by
  simp only [processPlugin, if_neg (by decide : ¬ ("remove" : String) = "add")]
  exact removeRoutes_sub q acc.1.routes

theorem idsFold_remove_routes_sub (env : SyncEnv) :
    ∀ (ids : List String) (acc : AppState × Bool),
      (ids.foldl (processPlugin env "remove") acc).1.routes ⊆ acc.1.routes
  | [], _ => fun _ h => h
  | q :: rest, acc => fun r hr =>
    processPlugin_remove_routes_sub env acc q
      (idsFold_remove_routes_sub env rest (processPlugin env "remove" acc q) hr)

theorem idsFold_remove_no_match (env : SyncEnv) :
    ∀ (ids : List String) (acc : AppState × Bool) {q : String},
      q ∈ ids → ¬ q = "" →
      ∀ r ∈ (ids.foldl (processPlugin env "remove") acc).1.routes,
        strStartsWith r.path (pluginScope q) = false
  | [], _, _, hmem, _ => absurd hmem (List.not_mem_nil _)
  | x :: rest, acc, q, hmem, hq => by
    intro r hr
    rcases List.mem_cons.mp hmem with rfl | hmem'
    · have hsub := idsFold_remove_routes_sub env rest (processPlugin env "remove" acc q)
      have hr' := hsub hr
      simp only [processPlugin,
        if_neg (by decide : ¬ ("remove" : String) = "add")] at hr'
      exact removeRoutes_no_match hq acc.1.routes r hr'
    · exact idsFold_remove_no_match env rest (processPlugin env "remove" acc x)
        hmem' hq r hr

theorem cleanFold_sub (snap : String → Option Route) :
    ∀ (ps : List String) (routes : List Route),
      (ps.foldl
        (fun rs p => match snap p with
          | some r₀ => removeFirst rs r₀
          | none => rs) routes) ⊆ routes
  | [], _ => fun _ h => h
  | p :: rest, routes => by
    intro r hr
    have h1 := cleanFold_sub snap rest
      (match snap p with
        | some r₀ => removeFirst routes r₀
        | none => routes) hr
    cases hs : snap p with
    | none => simpa [hs] using h1
    | some r₀ =>
      rw [hs] at h1
      exact removeFirst_subset routes r₀ h1

theorem cleanProtectedRoutes_sub (snap : String → Option Route)
    (routes : List Route) : cleanProtectedRoutes snap routes ⊆ routes :=
  cleanFold_sub snap PROTECTED_ROUTES routes

/-- No protected path starts with any plugin scope prefix. -/
theorem protected_not_scope {p : String} (hp : p ∈ PROTECTED_ROUTES)
    (q : String) : strStartsWith p (pluginScope q) = false := by
  have hbase : (PLUGIN_PREFIX ++ "/").toList <+: (pluginScope q).toList := by
    refine ⟨q.toList ++ "/".toList, ?_⟩
    simp [pluginScope, toList_append, List.append_assoc]
  by_cases hsw : strStartsWith p (pluginScope q) = true
  · exfalso
    have hpre : (pluginScope q).toList <+: p.toList := strStartsWith_iff.mp hsw
    have h2 : (PLUGIN_PREFIX ++ "/").toList <+: p.toList := hbase.trans hpre
    simp only [PROTECTED_ROUTES, List.mem_cons, List.not_mem_nil, or_false] at hp
    rcases hp with rfl | rfl | rfl | rfl
    · exact absurd h2 (by decide)
    · exact absurd h2 (by decide)
    · exact absurd h2 (by decide)
    · exact absurd h2 (by decide)
  · exact Bool.not_eq_true _ |>.mp hsw

theorem updateGo_remove_no_match (env : SyncEnv) (pluginId : Option String)
    (st : AppState) {q : String} (hqmem : q ∈ pluginIdsOf env pluginId)
    (hq : ¬ q = "") :
    ∀ r ∈ (updateGo env pluginId "remove" st).1.routes,
      strStartsWith r.path (pluginScope q) = false := by
  intro r hr
  simp only [updateGo] at hr
  cases hm : ((pluginIdsOf env pluginId).foldl (processPlugin env "remove") (st, false)).2
  · rw [hm] at hr
    simp only [Bool.false_eq_true, if_false] at hr
    exact idsFold_remove_no_match env (pluginIdsOf env pluginId) (st, false) hqmem hq r hr
  · rw [hm] at hr
    simp only [if_true] at hr
    rcases List.mem_append.mp hr with hleft | hright
    · have h1 := cleanProtectedRoutes_sub (snapshotPaths st.routes) _ hleft
      exact idsFold_remove_no_match env (pluginIdsOf env pluginId) (st, false) hqmem hq r h1
    · rcases List.mem_map.mp hright with ⟨p, hp, rfl⟩
      exact protected_not_scope hp q

theorem processPlugin_remove_id (env : SyncEnv) (acc : AppState × Bool)
    (q : String) (h : (removeRoutes q acc.1.routes).2 = false) :
    processPlugin env "remove" acc q = acc := by
  simp only [processPlugin, if_neg (by decide : ¬ ("remove" : String) = "add")]
  rw [removeRoutes_of_not_removed h, h]
  simp

theorem idsFold_remove_id (env : SyncEnv) :
    ∀ (ids : List String) (acc : AppState × Bool),
      (∀ q ∈ ids, (removeRoutes q acc.1.routes).2 = false) →
      ids.foldl (processPlugin env "remove") acc = acc
  | [], _, _ => rfl
  | x :: rest, acc, hall => by
    have hx := processPlugin_remove_id env acc x (hall x (List.mem_cons_self x rest))
    simp only [List.foldl_cons, hx]
    exact idsFold_remove_id env rest acc (fun q hq => hall q (List.mem_cons_of_mem _ hq))

theorem updateGo_remove_noop (env : SyncEnv) (pluginId : Option String)
    (st : AppState)
    (h : ∀ q ∈ pluginIdsOf env pluginId, (removeRoutes q st.routes).2 = false) :
    updateGo env pluginId "remove" st = (st, false) := by
  simp only [updateGo]
  rw [idsFold_remove_id env (pluginIdsOf env pluginId) (st, false) h]
  simp

/-! ### C6: removal is idempotent, removing absent routes is a silent no-op -/

/-- C6: route removal is idempotent: for every plugin id, running the sync
with action remove twice in a row leaves the route table in exactly the same
state as running it once; and removing the routes of a plugin that has no
registered routes (including an id unknown to the registry) is a silent
no-op that reports no error (`remove_plugin_api` completes without raising
and leaves the state untouched). -/
theorem remove_sync_idempotent (env : SyncEnv) (pid : String) (st : AppState) :
    (updateGo env (some pid) "remove" ((updateGo env (some pid) "remove" st).1)).1 =
      (updateGo env (some pid) "remove" st).1 ∧
    ((∀ q ∈ pluginIdsOf env (some pid), ∀ r ∈ st.routes,
        strStartsWith r.path (pluginScope q) = false) →
      remove_plugin_api env pid st = Except.ok st) := by
  constructor
  · have hnm : ∀ q ∈ pluginIdsOf env (some pid),
        (removeRoutes q ((updateGo env (some pid) "remove" st).1).routes).2 = false := by
      intro q hq
      by_cases hqe : q = ""
      · simp [removeRoutes, hqe]
      · simp only [removeRoutes, if_neg hqe]
        rw [List.any_eq_false]
        intro r hr
        simp [updateGo_remove_no_match env (some pid) st hq hqe r hr]
    rw [updateGo_remove_noop env (some pid) _ hnm]
  · intro hnone
    have hnm : ∀ q ∈ pluginIdsOf env (some pid),
        (removeRoutes q st.routes).2 = false := by
      intro q hq
      by_cases hqe : q = ""
      · simp [removeRoutes, hqe]
      · simp only [removeRoutes, if_neg hqe]
        rw [List.any_eq_false]
        intro r hr
        simp [hnone q hq r hr]
    have hgo := updateGo_remove_noop env (some pid) st hnm
    simp [remove_plugin_api, updatePluginApiRoutes, hgo, Except.map]

/-- Witness for C6 at a concrete plugin id with no registered routes. -/
theorem remove_sync_idempotent_witness :
    (∀ q ∈ pluginIdsOf exEnv (some "demo"), ∀ r ∈ exStClean.routes,
        strStartsWith r.path (pluginScope q) = false) ∧
    remove_plugin_api exEnv "demo" exStClean = Except.ok exStClean :=
  ⟨by decide, (remove_sync_idempotent exEnv "demo" exStClean).2 (by decide)⟩

/-! ### C5: authentication dependencies attached at registration -/

theorem fresh_not_mem {deps : List Dep} {c : Nat}
    (hfresh : ∀ d ∈ deps, d.serial < c) {fn : AuthFn} {k : Nat} (hk : c ≤ k) :
    Dep.mk fn k ∉ deps :=
  fun hmem => absurd (hfresh _ hmem) (Nat.not_lt.mpr hk)

theorem nodup_append_singleton {α : Type} {l : List α} {d : α}
    (hd : d ∉ l) (hl : l.Nodup) : (l ++ [d]).Nodup := by
  induction l with
  | nil => simp
  | cons x xs ih =>
    rw [List.cons_append, List.nodup_cons]
    refine ⟨?_, ih (fun hm => hd (List.mem_cons_of_mem _ hm))
      (List.nodup_cons.mp hl).2⟩
    intro hx
    rcases List.mem_append.mp hx with hxs | hxd
    · exact (List.nodup_cons.mp hl).1 hxs
    · have hxd' : x = d := by simpa using hxd
      exact hd (by rw [← hxd']; exact List.mem_cons_self x xs)

theorem addAuthDeps_anon {auth : String} {deps : List Dep} {c : Nat} :
    addAuthDeps true auth deps c = (deps, c) := rfl

theorem addAuthDeps_bear {deps : List Dep} {c : Nat}
    (hfresh : ∀ d ∈ deps, d.serial < c) :
    addAuthDeps false "bear" deps c =
      (deps ++ [Dep.mk .verifyToken (c + 1)], c + 2) := by
  simp [addAuthDeps,
    (fresh_not_mem hfresh (Nat.le_refl c) : Dep.mk .verifyToken c ∉ deps)]

theorem addAuthDeps_apikey {auth : String} {deps : List Dep} {c : Nat}
    (hauth : ¬ auth = "bear") (hfresh : ∀ d ∈ deps, d.serial < c) :
    addAuthDeps false auth deps c =
      (deps ++ [Dep.mk .verifyApikey (c + 1)], c + 2) := by
  simp [addAuthDeps, hauth,
    (fresh_not_mem hfresh (Nat.le_refl c) : Dep.mk .verifyApikey c ∉ deps)]

/-- C5: for every route descriptor registered during a sync with action add:
an anonymous route gets no authentication dependency; a `"bear"` auth mode
gets a token-verification dependency; every other non-anonymous mode gets an
API-key-verification dependency; no dependency object ends up present twice
by identity (the freshly constructed `Depends` object is never identical to
one already in the list, so pairwise distinctness is preserved); and the
route is registered with exactly the resulting dependency list. -/
theorem add_route_auth_dependencies (f : String → Bool) (api : PluginApi)
    (st : AppState) (m : Bool)
    (hfresh : ∀ d ∈ api.dependencies, d.serial < st.nextSerial) :
    (api.allow_anonymous = true →
      (addAuthDeps api.allow_anonymous api.auth api.dependencies st.nextSerial).1 =
        api.dependencies) ∧
    (api.allow_anonymous = false → api.auth = "bear" →
      (addAuthDeps api.allow_anonymous api.auth api.dependencies st.nextSerial).1 =
        api.dependencies ++ [Dep.mk .verifyToken (st.nextSerial + 1)]) ∧
    (api.allow_anonymous = false → ¬ api.auth = "bear" →
      (addAuthDeps api.allow_anonymous api.auth api.dependencies st.nextSerial).1 =
        api.dependencies ++ [Dep.mk .verifyApikey (st.nextSerial + 1)]) ∧
    (api.dependencies.Nodup →
      (addAuthDeps api.allow_anonymous api.auth api.dependencies st.nextSerial).1.Nodup) ∧
    (f (PLUGIN_PREFIX ++ api.path) = false →
      (processApi f api (st, m)).1.routes = st.routes ++
        [{ path := PLUGIN_PREFIX ++ api.path,
           deps := (addAuthDeps api.allow_anonymous api.auth api.dependencies
             st.nextSerial).1 }]) := by
  refine ⟨?_, ?_, ?_, ?_, ?_⟩
  · intro ha; rw [ha, addAuthDeps_anon]
  · intro ha hb; rw [ha, hb, addAuthDeps_bear hfresh]
  · intro ha hb; rw [ha, addAuthDeps_apikey hb hfresh]
  · intro hnd
    cases ha : api.allow_anonymous with
    | true => rw [addAuthDeps_anon]; exact hnd
    | false =>
      by_cases hb : api.auth = "bear"
      · rw [hb, addAuthDeps_bear hfresh]
        exact nodup_append_singleton
          (fresh_not_mem hfresh (Nat.le_succ st.nextSerial)) hnd
      · rw [addAuthDeps_apikey hb hfresh]
        exact nodup_append_singleton
          (fresh_not_mem hfresh (Nat.le_succ st.nextSerial)) hnd
  · intro hf
    simp [processApi, hf]

/-- Witness for C5: a concrete bearer-token route with an empty dependency
list, registered successfully. -/
theorem add_route_auth_dependencies_witness :
    (∀ d ∈ (PluginApi.mk "/demo/ok" false "bear" []).dependencies,
        d.serial < exStClean.nextSerial) ∧
    ((PluginApi.mk "/demo/ok" false "bear" []).allow_anonymous = false →
      (PluginApi.mk "/demo/ok" false "bear" []).auth = "bear" →
      (addAuthDeps false "bear" [] exStClean.nextSerial).1 =
        [] ++ [Dep.mk .verifyToken (exStClean.nextSerial + 1)]) :=
  ⟨by decide,
    (add_route_auth_dependencies (fun _ => false)
      (PluginApi.mk "/demo/ok" false "bear" []) exStClean false (by decide)).2.1⟩

/-! ### Plugin-scoped paths: disjointness facts -/

theorem slash_toList : ("/" : String).toList = ['/'] := rfl

/-- No plugin-prefixed path is a protected path. -/
theorem pluginPath_not_protected (s : String) :
    (PLUGIN_PREFIX ++ s) ∉ PROTECTED_ROUTES := by
  intro h
  have hpre : PLUGIN_PREFIX.toList <+: (PLUGIN_PREFIX ++ s).toList :=
    ⟨s.toList, (toList_append _ _).symm⟩
  simp only [PROTECTED_ROUTES, List.mem_cons, List.not_mem_nil, or_false] at h
  rcases h with h | h | h | h <;> rw [h] at hpre <;> exact absurd hpre (by decide)

/-- A route resolved for plugin `pid` (whose declared path starts with
`/pid/`) does not match the removal scope of a different plugin `q`, provided
neither id contains a slash. -/
theorem scope_not_prefix_of_other {q pid path : String}
    (hq : '/' ∉ q.toList) (hp : '/' ∉ pid.toList) (hne : ¬ q = pid)
    (hpath : strStartsWith path ("/" ++ pid ++ "/") = true) :
    strStartsWith (PLUGIN_PREFIX ++ path) (pluginScope q) = false := by
  by_cases hsw : strStartsWith (PLUGIN_PREFIX ++ path) (pluginScope q) = true
  · exfalso
    rcases strStartsWith_iff.mp hpath with ⟨t, ht⟩
    have h1 := strStartsWith_iff.mp hsw
    have e1 : (pluginScope q).toList =
        PLUGIN_PREFIX.toList ++ ('/' :: (q.toList ++ ['/'])) := by
      simp [pluginScope, toList_append, slash_toList]
    have hpath' : path.toList = '/' :: (pid.toList ++ '/' :: t) := by
      rw [← ht]
      simp [toList_append, slash_toList, List.append_assoc]
    have e2 : (PLUGIN_PREFIX ++ path).toList =
        PLUGIN_PREFIX.toList ++ ('/' :: (pid.toList ++ '/' :: t)) := by
      rw [toList_append, hpath']
    rw [e1, e2] at h1
    have h3 := (List.prefix_append_right_inj PLUGIN_PREFIX.toList).mp h1
    have h4 := (List.cons_prefix_cons.mp h3).2
    have h5 := sep_token_prefix_eq q.toList pid.toList t hq hp h4
    exact hne (string_eq_of_toList_eq h5)
  · exact Bool.not_eq_true _ |>.mp hsw

/-! ### C9: best-effort batch registration -/

theorem apisFold_flag_of_ok (f : String → Bool) :
    ∀ (apis : List PluginApi) (acc : AppState × Bool) {api : PluginApi},
      api ∈ apis → f (PLUGIN_PREFIX ++ api.path) = false →
      (apis.foldl (fun a api => processApi f api a) acc).2 = true
  | [], _, _, hmem, _ => absurd hmem (List.not_mem_nil _)
  | a :: rest, acc, api, hmem, hok => by
    rcases List.mem_cons.mp hmem with rfl | hmem'
    · refine apisFold_flag_mono f rest (processApi f api acc) ?_
      simp [processApi, hok]
    · exact apisFold_flag_of_ok f rest (processApi f a acc) hmem' hok

theorem mem_apisFold_of_ok (f : String → Bool) :
    ∀ (apis : List PluginApi) (acc : AppState × Bool) {api : PluginApi},
      api ∈ apis → f (PLUGIN_PREFIX ++ api.path) = false →
      ∃ r ∈ (apis.foldl (fun a api => processApi f api a) acc).1.routes,
        r.path = PLUGIN_PREFIX ++ api.path
  | [], _, _, hmem, _ => absurd hmem (List.not_mem_nil _)
  | a :: rest, acc, api, hmem, hok => by
    rcases List.mem_cons.mp hmem with rfl | hmem'
    · refine ⟨⟨PLUGIN_PREFIX ++ api.path,
        (addAuthDeps api.allow_anonymous api.auth api.dependencies
          acc.1.nextSerial).1⟩, ?_, rfl⟩
      refine mem_apisFold f rest (processApi f api acc) ?_
      simp [processApi, hok]
    · exact mem_apisFold_of_ok f rest (processApi f a acc) hmem' hok

/-- Core lemma shared by C9 and C7: after an add-sync, every route whose own
registration does not fail is present in the route table. -/
theorem route_present_after_add (env : SyncEnv) (pluginId : Option String)
    (st : AppState)
    (hnodup : (pluginIdsOf env pluginId).Nodup)
    (hids : ∀ q ∈ pluginIdsOf env pluginId, '/' ∉ q.toList)
    (hwf : ∀ q ∈ pluginIdsOf env pluginId, ∀ a ∈ env.apis q,
        strStartsWith a.path ("/" ++ q ++ "/") = true)
    {pid : String} (hpid : pid ∈ pluginIdsOf env pluginId)
    {api : PluginApi} (hapi : api ∈ env.apis pid)
    (hok : env.addFails (PLUGIN_PREFIX ++ api.path) = false) :
    ∃ r ∈ (updateGo env pluginId "add" st).1.routes,
      r.path = PLUGIN_PREFIX ++ api.path := by
  rcases List.append_of_mem hpid with ⟨l₁, l₂, hsplit⟩
  have hpid2 : pid ∉ l₂ := by
    have h1 : (l₁ ++ pid :: l₂).Nodup := hsplit ▸ hnodup
    exact (List.nodup_cons.mp h1.of_append_right).1
  -- run the fold up to and including `pid`
  have hfold : (pluginIdsOf env pluginId).foldl (processPlugin env "add") (st, false) =
      l₂.foldl (processPlugin env "add")
        (processPlugin env "add" (l₁.foldl (processPlugin env "add") (st, false)) pid) := by
    rw [hsplit, List.foldl_append, List.foldl_cons]
  set acc₁ := l₁.foldl (processPlugin env "add") (st, false) with hacc₁
  have hstep : ∃ r ∈ (processPlugin env "add" acc₁ pid).1.routes,
      r.path = PLUGIN_PREFIX ++ api.path := by
    simp only [processPlugin, if_pos rfl]
    exact mem_apisFold_of_ok env.addFails (env.apis pid) _ hapi hok
  have hstepflag : (processPlugin env "add" acc₁ pid).2 = true := by
    simp only [processPlugin, if_pos rfl]
    exact apisFold_flag_of_ok env.addFails (env.apis pid) _ hapi hok
  rcases hstep with ⟨r, hrmem, hrpath⟩
  have hsurvive : r ∈ ((pluginIdsOf env pluginId).foldl (processPlugin env "add")
      (st, false)).1.routes := by
    rw [hfold]
    refine mem_idsFold env "add" l₂ _ hrmem ?_
    intro q hq
    rw [hrpath]
    refine scope_not_prefix_of_other
      (hids q (hsplit ▸ List.mem_append.mpr (Or.inr (List.mem_cons_of_mem _ hq))))
      (hids pid hpid) (fun he => hpid2 (he ▸ hq)) (hwf pid hpid api hapi)
  have hflag : ((pluginIdsOf env pluginId).foldl (processPlugin env "add")
      (st, false)).2 = true := by
    rw [hfold]
    exact idsFold_flag_mono env "add" l₂ _ hstepflag
  simp only [updateGo, hflag, if_true]
  refine ⟨r, ?_, hrpath⟩
  refine mem_appSetup (mem_cleanProtectedRoutes (snapshotPaths st.routes)
    (fun p r₀ h => snapshotPaths_some h) ?_ ?_)
  · exact hsurvive
  · rw [hrpath]
    exact pluginPath_not_protected api.path

/-- C9: during a sync with action add, a failure while registering one route
is caught and does not prevent the registration of that plugin's remaining
routes nor the routes of the other plugins in the batch: after the batch,
every route whose individual registration did not itself fail is present in
the route table. -/
theorem add_batch_best_effort (env : SyncEnv) (pluginId : Option String)
    (st : AppState)
    (hnodup : (pluginIdsOf env pluginId).Nodup)
    (hids : ∀ q ∈ pluginIdsOf env pluginId, '/' ∉ q.toList)
    (hwf : ∀ q ∈ pluginIdsOf env pluginId, ∀ a ∈ env.apis q,
        strStartsWith a.path ("/" ++ q ++ "/") = true) :
    ∀ pid ∈ pluginIdsOf env pluginId, ∀ api ∈ env.apis pid,
      env.addFails (PLUGIN_PREFIX ++ api.path) = false →
      ∃ r ∈ (updateGo env pluginId "add" st).1.routes,
        r.path = PLUGIN_PREFIX ++ api.path :=
  fun _pid hpid _api hapi hok =>
    route_present_after_add env pluginId st hnodup hids hwf hpid hapi hok

/-- Witness for C9: in `exEnv` the first route of `demo` fails to register;
the second route is nevertheless present after the batch. -/
theorem add_batch_best_effort_witness :
    ((pluginIdsOf exEnv none).Nodup ∧
     (∀ q ∈ pluginIdsOf exEnv none, '/' ∉ q.toList) ∧
     (∀ q ∈ pluginIdsOf exEnv none, ∀ a ∈ exEnv.apis q,
        strStartsWith a.path ("/" ++ q ++ "/") = true) ∧
     "demo" ∈ pluginIdsOf exEnv none ∧
     { path := "/demo/ok", allow_anonymous := false, auth := "bear",
       dependencies := [] } ∈ exEnv.apis "demo" ∧
     exEnv.addFails (PLUGIN_PREFIX ++ "/demo/ok") = false ∧
     exEnv.addFails (PLUGIN_PREFIX ++ "/demo/fail") = true) ∧
    (∃ r ∈ (updateGo exEnv none "add" exStClean).1.routes,
      r.path = PLUGIN_PREFIX ++ "/demo/ok") :=
  ⟨⟨by decide, by decide, by decide, by decide, by decide, by decide, by decide⟩,
    add_batch_best_effort exEnv none exStClean (by decide) (by decide) (by decide)
      "demo" (by decide)
      { path := "/demo/ok", allow_anonymous := false, auth := "bear",
        dependencies := [] } (by decide) (by decide)⟩

/-! ### C3: folder encoding preservation -/

theorem removeFromFolder_enc (pid : String) (fd : FolderData) :
    ((removeFromFolder pid fd).1).enc = fd.enc := by
  cases fd with
  | listForm ps => by_cases h : pid ∈ ps <;> simp [removeFromFolder, h, FolderData.enc]
  | recordForm ps o i =>
      by_cases h : pid ∈ ps <;> simp [removeFromFolder, h, FolderData.enc]
  | otherForm => rfl

theorem addCloneToFolderData_enc (cloneId : String) (fd : FolderData) :
    (addCloneToFolderData cloneId fd).enc = fd.enc := by
  cases fd with
  | listForm ps =>
      by_cases h : cloneId ∈ ps <;> simp [addCloneToFolderData, h, FolderData.enc]
  | recordForm ps o i =>
      by_cases h : cloneId ∈ ps <;> simp [addCloneToFolderData, h, FolderData.enc]
  | otherForm => rfl

theorem forall₂_map_enc {g : String × FolderData → String × FolderData}
    (hg : ∀ kv, (g kv).1 = kv.1 ∧ ((g kv).2).enc = kv.2.enc) :
    ∀ folders : List (String × FolderData),
      List.Forall₂ (fun a b => a.1 = b.1 ∧ b.2.enc = a.2.enc) folders (folders.map g)
  | [] => List.Forall₂.nil
  | kv :: rest =>
      List.Forall₂.cons ⟨(hg kv).1.symm, (hg kv).2⟩ (forall₂_map_enc hg rest)

theorem forall₂_enc_self :
    ∀ folders : List (String × FolderData),
      List.Forall₂ (fun a b => a.1 = b.1 ∧ b.2.enc = a.2.enc) folders folders
  | [] => List.Forall₂.nil
  | _ :: rest => List.Forall₂.cons ⟨rfl, rfl⟩ (forall₂_enc_self rest)

theorem find?_dictSet (k : String) (v : FolderData) :
    ∀ m : List (String × FolderData),
      (dictSet m k v).find? (fun kv => kv.1 = k) = some (k, v) := by
  intro m
  by_cases hany : m.any (fun kv => kv.1 = k) = true
  · simp only [dictSet, if_pos hany]
    induction m with
    | nil => simp at hany
    | cons a rest ih =>
      by_cases ha : a.1 = k
      · simp [List.find?_cons, ha]
      · have hrest : rest.any (fun kv => kv.1 = k) = true := by
          rcases List.any_eq_true.mp hany with ⟨kv, hkv, hkv2⟩
          rcases List.mem_cons.mp hkv with rfl | hkv'
          · exact absurd (of_decide_eq_true hkv2) ha
          · exact List.any_eq_true.mpr ⟨kv, hkv', hkv2⟩
        simp only [List.map_cons, List.find?_cons, if_neg ha]
        rw [decide_eq_false ha]
        exact ih hrest
  · simp only [dictSet, if_neg hany]
    rw [List.find?_append]
    have h1 : m.find? (fun kv => kv.1 = k) = none := by
      rw [List.find?_eq_none]
      intro kv hkv hdec
      exact hany (List.any_eq_true.mpr ⟨kv, hkv, hdec⟩)
    rw [h1]
    simp

/-- C3 counterexample: `update_folder_plugins` on a record-encoded folder
rewrites it as a plain list — the encoding on disk is not preserved by the
wholesale membership replacement. -/
theorem update_folder_plugins_migrates_encoding :
    (update_folder_plugins "X" ["q"] [("X", FolderData.recordForm ["p"] 1 "i")]).1 =
      [("X", FolderData.listForm ["q"])] ∧
    (FolderData.listForm ["q"]).enc ≠ (FolderData.recordForm ["p"] 1 "i").enc :=
  ⟨by decide, by decide⟩

/-- C3 (amended): the scanning operations (`_remove_plugin_from_folders`,
`_add_clone_to_plugin_folder`) rewrite every folder in the encoding already on
disk, and `create_plugin_folder` never touches existing folders; but
`update_folder_plugins` always persists the given membership as a plain list,
so replacing a record-encoded folder's membership wholesale silently migrates
it to the list encoding (dropping `order` and `icon`). -/
theorem folder_encoding_policy :
    (∀ (pid : String) (folders : List (String × FolderData)),
      List.Forall₂ (fun a b => a.1 = b.1 ∧ b.2.enc = a.2.enc)
        folders (removePluginFromFolders pid folders).1) ∧
    (∀ (origId cloneId : String) (folders : List (String × FolderData)),
      List.Forall₂ (fun a b => a.1 = b.1 ∧ b.2.enc = a.2.enc)
        folders (addCloneToPluginFolder origId cloneId folders).1) ∧
    (∀ (name : String) (folders : List (String × FolderData)),
      (create_plugin_folder name folders).1 = folders ∨
      (create_plugin_folder name folders).1 = folders ++ [(name, .listForm [])]) ∧
    (∀ (name : String) (ids : List String) (folders : List (String × FolderData)),
      dictGet name (update_folder_plugins name ids folders).1 =
        some (.listForm ids)) := by
  refine ⟨?_, ?_, ?_, ?_⟩
  · intro pid folders
    simp only [removePluginFromFolders]
    refine forall₂_map_enc (fun kv => ?_) folders
    exact ⟨rfl, removeFromFolder_enc pid kv.2⟩
  · intro origId cloneId folders
    cases hf : folders.find? (fun kv => folderContains origId kv.2) with
    | none =>
      simp only [addCloneToPluginFolder, hf]
      exact forall₂_enc_self folders
    | some kv =>
      simp only [addCloneToPluginFolder, hf]
      refine forall₂_map_enc (fun e => ?_) folders
      by_cases he : e.1 = kv.1
      · exact ⟨by simp [he], by simp [he, addCloneToFolderData_enc]⟩
      · exact ⟨by simp [he], by simp [he]⟩
  · intro name folders
    by_cases h : folders.any (fun kv => kv.1 = name) = true
    · left; simp [create_plugin_folder, h]
    · right; simp [create_plugin_folder, h]
  · intro name ids folders
    simp only [update_folder_plugins, dictGet, find?_dictSet]
    rfl

/-! ### C4 and C10: uninstall -/

theorem dictGet_filter_ne {α : Type} {pid q : String} (hne : ¬ q = pid) :
    ∀ m : List (String × α),
      dictGet q (m.filter (fun kv => ¬ kv.1 = pid)) = dictGet q m
  | [] => rfl
  | a :: rest => by
    by_cases ha : a.1 = pid
    · have hfilter : (a :: rest).filter (fun kv => ¬ kv.1 = pid) =
          rest.filter (fun kv => ¬ kv.1 = pid) := by
        simp [List.filter_cons, ha]
      have hr : dictGet q (a :: rest) = dictGet q rest := by
        simp only [dictGet, List.find?_cons]
        rw [decide_eq_false (fun he : a.1 = q => hne (he.symm.trans ha))]
      rw [hfilter, hr]
      exact dictGet_filter_ne hne rest
    · have hfilter : (a :: rest).filter (fun kv => ¬ kv.1 = pid) =
          a :: rest.filter (fun kv => ¬ kv.1 = pid) := by
        simp [List.filter_cons, ha]
      rw [hfilter]
      by_cases hq : a.1 = q
      · simp [dictGet, List.find?_cons, hq]
      · simp only [dictGet, List.find?_cons]
        rw [decide_eq_false hq]
        exact dictGet_filter_ne hne rest

theorem folderContains_removeFromFolder {pid : String} {fd : FolderData}
    (h : (folderPlugins fd).count pid ≤ 1) :
    folderContains pid (removeFromFolder pid fd).1 = false := by
  cases fd with
  | listForm ps =>
    by_cases hm : pid ∈ ps
    · simp only [removeFromFolder, if_pos hm, folderContains]
      exact decide_eq_false (not_mem_removeFirst_of_count_le_one h)
    · simp only [removeFromFolder, if_neg hm, folderContains]
      exact decide_eq_false hm
  | recordForm ps o i =>
    by_cases hm : pid ∈ ps
    · simp only [removeFromFolder, if_pos hm, folderContains]
      exact decide_eq_false (not_mem_removeFirst_of_count_le_one h)
    · simp only [removeFromFolder, if_neg hm, folderContains]
      exact decide_eq_false hm
  | otherForm => rfl

/-- C4: uninstalling a clone deletes its persisted config, its persisted
data, and its on-disk code directory, removes the id from the installed list
and from every folder (in both encodings) that contains it, drops it from the
registry, leaves every other plugin's config untouched, and reports success. -/
theorem uninstall_clone_scrubs (env : SyncEnv) (rmFails : String → Bool)
    (pluginId : String) (s0 : SysState)
    (hclone : isCloneOf s0.plugins pluginId = true)
    (hrm : rmFails pluginId.toLower = false)
    (hinst : s0.installed.count pluginId ≤ 1)
    (hfolders : ∀ kv ∈ s0.folders, (folderPlugins kv.2).count pluginId ≤ 1) :
    (∀ kv ∈ (uninstall_plugin env rmFails pluginId s0).1.configs,
      ¬ kv.1 = pluginId) ∧
    (∀ kv ∈ (uninstall_plugin env rmFails pluginId s0).1.datas,
      ¬ kv.1 = pluginId) ∧
    pluginId.toLower ∉ (uninstall_plugin env rmFails pluginId s0).1.codeDirs ∧
    pluginId ∉ (uninstall_plugin env rmFails pluginId s0).1.installed ∧
    (∀ kv ∈ (uninstall_plugin env rmFails pluginId s0).1.folders,
      folderContains pluginId kv.2 = false) ∧
    (∀ kv ∈ (uninstall_plugin env rmFails pluginId s0).1.plugins,
      ¬ kv.1 = pluginId) ∧
    (∀ q, ¬ q = pluginId →
      dictGet q (uninstall_plugin env rmFails pluginId s0).1.configs =
        dictGet q s0.configs) ∧
    (uninstall_plugin env rmFails pluginId s0).2 =
      { success := true, message := none } := by
  simp only [uninstall_plugin, hclone, if_true]
  by_cases hdir : pluginId.toLower ∈ s0.codeDirs
  · rw [if_pos hdir, hrm]
    simp only [Bool.false_eq_true, if_false]
    refine ⟨?_, ?_, ?_, ?_, ?_, ?_, ?_, True.intro⟩
    · intro kv hkv
      exact of_decide_eq_true (List.mem_filter.mp hkv).2
    · intro kv hkv
      exact of_decide_eq_true (List.mem_filter.mp hkv).2
    · intro hmem
      exact of_decide_eq_true (List.mem_filter.mp hmem).2 rfl
    · intro hmem
      exact not_mem_removeFirst_of_count_le_one hinst hmem
    · intro kv hkv
      rcases List.mem_map.mp hkv with ⟨kv₀, hkv₀, rfl⟩
      exact folderContains_removeFromFolder (hfolders kv₀ hkv₀)
    · intro kv hkv
      exact of_decide_eq_true (List.mem_filter.mp hkv).2
    · intro q hq
      exact dictGet_filter_ne hq s0.configs
  · rw [if_neg hdir]
    refine ⟨?_, ?_, ?_, ?_, ?_, ?_, ?_, True.intro⟩
    · intro kv hkv
      exact of_decide_eq_true (List.mem_filter.mp hkv).2
    · intro kv hkv
      exact of_decide_eq_true (List.mem_filter.mp hkv).2
    · exact hdir
    · intro hmem
      exact not_mem_removeFirst_of_count_le_one hinst hmem
    · intro kv hkv
      rcases List.mem_map.mp hkv with ⟨kv₀, hkv₀, rfl⟩
      exact folderContains_removeFromFolder (hfolders kv₀ hkv₀)
    · intro kv hkv
      exact of_decide_eq_true (List.mem_filter.mp hkv).2
    · intro q hq
      exact dictGet_filter_ne hq s0.configs

/-- Witness for C4: uninstalling the clone `demo_b` from `exSys`; the config
of the original `demo` is untouched. -/
theorem uninstall_clone_scrubs_witness :
    (isCloneOf exSys.plugins "demo_b" = true ∧
     (fun _ : String => false) ("demo_b".toLower) = false ∧
     exSys.installed.count "demo_b" ≤ 1 ∧
     (∀ kv ∈ exSys.folders, (folderPlugins kv.2).count "demo_b" ≤ 1)) ∧
    (∀ kv ∈ (uninstall_plugin exEnv (fun _ => false) "demo_b" exSys).1.configs,
      ¬ kv.1 = "demo_b") ∧
    (∀ q, ¬ q = "demo_b" →
      dictGet q (uninstall_plugin exEnv (fun _ => false) "demo_b" exSys).1.configs =
        dictGet q exSys.configs) :=
  ⟨⟨by decide, rfl, by decide, by decide⟩,
    (uninstall_clone_scrubs exEnv (fun _ => false) "demo_b" exSys
      (by decide) rfl (by decide) (by decide)).1,
    (uninstall_clone_scrubs exEnv (fun _ => false) "demo_b" exSys
      (by decide) rfl (by decide) (by decide)).2.2.2.2.2.2.1⟩

/-- C10: `uninstall_plugin` always returns success, also for an id that is
not installed and unknown to the registry (no NotFound is surfaced); at most
one occurrence of the id is removed from the installed list per call, and for
an id not in the installed list the list is unchanged. -/
theorem uninstall_unknown_silent_success (env : SyncEnv)
    (rmFails : String → Bool) (pluginId : String) (s0 : SysState) :
    (uninstall_plugin env rmFails pluginId s0).2 =
      { success := true, message := none } ∧
    (uninstall_plugin env rmFails pluginId s0).1.installed =
      removeFirst s0.installed pluginId ∧
    s0.installed.count pluginId ≤
      (uninstall_plugin env rmFails pluginId s0).1.installed.count pluginId + 1 ∧
    (pluginId ∉ s0.installed →
      (uninstall_plugin env rmFails pluginId s0).1.installed = s0.installed) := by
  have hresp : (uninstall_plugin env rmFails pluginId s0).2 =
      { success := true, message := none } := rfl
  have hinstalled : (uninstall_plugin env rmFails pluginId s0).1.installed =
      removeFirst s0.installed pluginId := by
    simp only [uninstall_plugin]
    split
    · split
      · split
        · rfl
        · rfl
      · rfl
    · rfl
  refine ⟨hresp, hinstalled, ?_, ?_⟩
  · rw [hinstalled, count_removeFirst_self]
    omega
  · intro h
    rw [hinstalled, removeFirst_of_not_mem h]

/-- Witness for C10: uninstalling an id that was never installed. -/
theorem uninstall_unknown_silent_success_witness :
    ("ghost" ∉ exSys.installed) ∧
    (uninstall_plugin exEnv (fun _ => false) "ghost" exSys).1.installed =
      exSys.installed :=
  ⟨by decide,
    (uninstall_unknown_silent_success exEnv (fun _ => false) "ghost" exSys).2.2.2
      (by decide)⟩

/-! ### C7 and C8: install -/

theorem pluginIdsOf_some {env : SyncEnv} {pid : String} (hpid : ¬ pid = "") :
    pluginIdsOf env (some pid) = [pid] := by
  simp [pluginIdsOf, hpid]

/-- C7: installing an already-known plugin with `force = false` records an
install statistic only and attempts no download, works with any repo url
(including an empty one), still reloads the plugin — so that every route of
its API surface whose registration does not fail appears under the plugin
prefix — and returns success. -/
theorem install_known_stat_only (ienv : InstallEnv) (env : SyncEnv)
    (pluginId repoUrl : String) (s0 : InstallState)
    (hknown : pluginId ∈ ienv.knownIds)
    (hpid : ¬ pluginId = "") (hslash : '/' ∉ pluginId.toList)
    (hwf : ∀ a ∈ env.apis pluginId,
        strStartsWith a.path ("/" ++ pluginId ++ "/") = true) :
    (install ienv env pluginId repoUrl false s0).2 =
      { success := true, message := none } ∧
    (install ienv env pluginId repoUrl false s0).1.downloads = s0.downloads ∧
    (install ienv env pluginId repoUrl false s0).1.stats =
      s0.stats ++ [pluginId] ∧
    (install ienv env pluginId repoUrl false s0).1.reloads =
      s0.reloads ++ [pluginId] ∧
    (install ienv env pluginId repoUrl false s0).1.app =
      (updateGo env (some pluginId) "add" s0.app).1 ∧
    (∀ api ∈ env.apis pluginId,
      env.addFails (PLUGIN_PREFIX ++ api.path) = false →
      ∃ r ∈ (install ienv env pluginId repoUrl false s0).1.app.routes,
        r.path = PLUGIN_PREFIX ++ api.path) := by
  have hcond : ((false : Bool) = false ∧ pluginId ∈ ienv.knownIds) := ⟨rfl, hknown⟩
  have hmemgo : ∀ api ∈ env.apis pluginId,
      env.addFails (PLUGIN_PREFIX ++ api.path) = false →
      ∃ r ∈ (updateGo env (some pluginId) "add" s0.app).1.routes,
        r.path = PLUGIN_PREFIX ++ api.path := by
    intro api hapi hok
    refine route_present_after_add env (some pluginId) s0.app ?_ ?_ ?_ ?_ hapi hok
    · rw [pluginIdsOf_some hpid]
      exact List.nodup_singleton _
    · rw [pluginIdsOf_some hpid]
      intro q hq
      obtain rfl := List.mem_singleton.mp hq
      exact hslash
    · rw [pluginIdsOf_some hpid]
      intro q hq
      obtain rfl := List.mem_singleton.mp hq
      exact hwf
    · rw [pluginIdsOf_some hpid]
      exact List.mem_singleton.mpr rfl
  simp only [install]
  rw [if_pos (⟨trivial, hknown⟩ : True ∧ pluginId ∈ ienv.knownIds)]
  simp only [installFinish, reload_plugin, register_plugin]
  by_cases hin : pluginId ∈ s0.installed
  · simp only [if_pos hin]
    refine ⟨?_, ?_, ?_, ?_, ?_, hmemgo⟩ <;> trivial
  · simp only [if_neg hin]
    refine ⟨?_, ?_, ?_, ?_, ?_, hmemgo⟩ <;> trivial

/-- Witness for C7 at a concrete known plugin and empty repo url. -/
theorem install_known_stat_only_witness :
    ("demo" ∈ exInstEnv.knownIds ∧ ¬ ("demo" : String) = "" ∧
     '/' ∉ ("demo" : String).toList ∧
     (∀ a ∈ exEnv.apis "demo",
        strStartsWith a.path ("/" ++ "demo" ++ "/") = true)) ∧
    (install exInstEnv exEnv "demo" "" false exInstSt).2 =
      { success := true, message := none } ∧
    (install exInstEnv exEnv "demo" "" false exInstSt).1.downloads =
      exInstSt.downloads ∧
    (install exInstEnv exEnv "demo" "" false exInstSt).1.stats =
      exInstSt.stats ++ ["demo"] :=
  ⟨⟨by decide, by decide, by decide, by decide⟩,
    (install_known_stat_only exInstEnv exEnv "demo" "" exInstSt
      (by decide) (by decide) (by decide) (by decide)).1,
    (install_known_stat_only exInstEnv exEnv "demo" "" exInstSt
      (by decide) (by decide) (by decide) (by decide)).2.1,
    (install_known_stat_only exInstEnv exEnv "demo" "" exInstSt
      (by decide) (by decide) (by decide) (by decide)).2.2.1⟩

/-- C8: when a download would be needed (the id is unknown or `force` is set)
and the repo url is empty, or when the download itself reports failure,
`install` returns a structured failure result `{success: false, message}`
without raising, and leaves the system unchanged: the installed list, the
reload log, the statistics log and the route table are untouched. -/
theorem install_failure_structured (ienv : InstallEnv) (env : SyncEnv)
    (pluginId repoUrl : String) (force : Bool) (s0 : InstallState)
    (hbranch : ¬ (force = false ∧ pluginId ∈ ienv.knownIds))
    (hfail : repoUrl = "" ∨ (ienv.download pluginId repoUrl).1 = false) :
    (install ienv env pluginId repoUrl force s0).2.success = false ∧
    (∃ msg, (install ienv env pluginId repoUrl force s0).2.message = some msg) ∧
    (install ienv env pluginId repoUrl force s0).1.installed = s0.installed ∧
    (install ienv env pluginId repoUrl force s0).1.reloads = s0.reloads ∧
    (install ienv env pluginId repoUrl force s0).1.stats = s0.stats ∧
    (install ienv env pluginId repoUrl force s0).1.app = s0.app := by
  by_cases hurl : repoUrl = ""
  · subst hurl
    simp only [install, if_neg hbranch]
    refine ⟨?_, ⟨_, rfl⟩, ?_, ?_, ?_, ?_⟩ <;> trivial
  · have hdl : (ienv.download pluginId repoUrl).1 = false := by
      rcases hfail with h | h
      · exact absurd h hurl
      · exact h
    simp only [install, if_neg hbranch, if_pos hurl, if_pos hdl]
    refine ⟨?_, ⟨_, rfl⟩, ?_, ?_, ?_, ?_⟩ <;> trivial

/-- Witness for C8: installing an unknown plugin with an empty repo url. -/
theorem install_failure_structured_witness :
    (¬ ((false : Bool) = false ∧ "ghost" ∈ exInstEnv.knownIds)) ∧
    (install exInstEnv exEnv "ghost" "" false exInstSt).2.success = false ∧
    (install exInstEnv exEnv "ghost" "" false exInstSt).1.installed =
      exInstSt.installed :=
  ⟨by decide,
    (install_failure_structured exInstEnv exEnv "ghost" "" false exInstSt
      (by decide) (Or.inl rfl)).1,
    (install_failure_structured exInstEnv exEnv "ghost" "" false exInstSt
      (by decide) (Or.inl rfl)).2.2.1⟩

/-! ### C1: protected routes always resolve -/

theorem updateGo_protected (env : SyncEnv) (pluginId : Option String)
    (action : String) (st : AppState)
    (h : ∀ p ∈ PROTECTED_ROUTES, ∃ r ∈ st.routes, r.path = p) :
    ∀ p ∈ PROTECTED_ROUTES, ∃ r ∈ (updateGo env pluginId action st).1.routes,
      r.path = p := by
  intro p hp
  simp only [updateGo]
  cases hm : ((pluginIdsOf env pluginId).foldl (processPlugin env action) (st, false)).2
  · simp only [hm, Bool.false_eq_true, if_false]
    have hstable := idsFold_flag_false env action (pluginIdsOf env pluginId) (st, false) hm
    rw [hstable.2]
    exact h p hp
  · simp only [hm, if_true]
    refine ⟨{ path := p, deps := [] }, ?_, rfl⟩
    exact List.mem_append.mpr (Or.inr (List.mem_map.mpr ⟨p, hp, rfl⟩))

/-- C1: after any sequence of route-synchronization calls
(`register_plugin_api` / `remove_plugin_api`, i.e. `_update_plugin_api_routes`
with action `"add"` or `"remove"`, over any plugin ids), every protected route
path in `PROTECTED_ROUTES` still resolves in the application's route table:
the synchronizer snapshots the protected-route bindings before any mutation
and, whenever a batch produced a net change, removes the stale snapshotted
bindings and lets the table rebuild (`app.setup()`) restore fresh ones, so
they are never left absent. -/
theorem protected_routes_always_resolve (env : SyncEnv) (cs : List SyncCall)
    (st : AppState)
    (h : ∀ p ∈ PROTECTED_ROUTES, ∃ r ∈ st.routes, r.path = p) :
    ∀ p ∈ PROTECTED_ROUTES, ∃ r ∈ (runCalls env cs st).routes, r.path = p := by
  induction cs generalizing st with
  | nil => exact h
  | cons c rest ih =>
    refine ih _ ?_
    cases c with
    | reg pid => exact updateGo_protected env pid "add" st h
    | rem pid => exact updateGo_protected env (some pid) "remove" st h

/-- Witness for C1 at a concrete mutating call sequence (a removal that hits a
route followed by a full re-registration). -/
theorem protected_routes_always_resolve_witness :
    (∀ p ∈ PROTECTED_ROUTES, ∃ r ∈ exSt.routes, r.path = p) ∧
    (∀ p ∈ PROTECTED_ROUTES,
      ∃ r ∈ (runCalls exEnv [SyncCall.rem "demo", SyncCall.reg (some "demo")] exSt).routes,
        r.path = p) :=
  ⟨by decide, protected_routes_always_resolve exEnv _ exSt (by decide)⟩

end MoviePilot
